import Mathlib

set_option maxRecDepth 8000

/-!
Verification of the GoldenSpaceAI orders webhook server (src/index.js).

The development embeds the payment-webhook pipeline of the Express server:
raw-body capture (`rawBodySaver`), the two HMAC signature verifiers
(`verifyLemonSignature`, `verifyNowPaymentsSignature`), JSON parsing of the
verified body, event classification, order extraction, and the notification
step, together with the two route handlers.

Modelling conventions:
* Byte sequences (`Bytes`) and JavaScript strings viewed as sequences of
  Unicode code points (`Str`) are both `List Nat`.
* `Buffer.prototype.toString("utf8")` and `Buffer.from(string)` are embedded
  as `utf8Decode` / `utf8Encode` (WHATWG replacement-character semantics).
* JavaScript numbers are modelled as exact rationals; the claims checked here
  only involve number values at which IEEE-754 double arithmetic is exact.
* `crypto.timingSafeEqual` throws on buffers of different length; fallible
  operations are embedded in `Except Unit`.
* HMAC-SHA256 / HMAC-SHA512 are implemented concretely (FIPS 180-4, RFC 2104),
  with the round constants derived from the fractional parts of square and
  cube roots of the first primes.
-/

/-- A byte sequence (each entry is intended to lie below 256). -/
abbrev Bytes := List Nat

/-- A JavaScript string, viewed as its sequence of Unicode code points. -/
abbrev Str := List Nat

/-- Convert a Lean string literal to the code-point model of a JS string. -/
def strLit (s : String) : Str := s.toList.map Char.toNat

/-! ## UTF-8 encoding and decoding (Node `Buffer` semantics) -/

/-- Is `c` a Unicode scalar value (a code point that is not a surrogate)? -/
def isScalar (c : Nat) : Bool :=
  c < 0xD800 || (0xE000 ≤ c && c < 0x110000)

/-- UTF-8 encoding of a single code point.  Lone surrogates and out-of-range
values are encoded as the replacement character, as `Buffer.from` does. -/
def utf8EncodeChar (c : Nat) : Bytes :=
  if c < 0x80 then [c]
  else if c < 0x800 then [0xC0 + c / 0x40, 0x80 + c % 0x40]
  else if c < 0x10000 then
    if 0xD800 ≤ c && c < 0xE000 then [0xEF, 0xBF, 0xBD]
    else [0xE0 + c / 0x1000, 0x80 + c / 0x40 % 0x40, 0x80 + c % 0x40]
  else if c < 0x110000 then
    [0xF0 + c / 0x40000, 0x80 + c / 0x1000 % 0x40,
     0x80 + c / 0x40 % 0x40, 0x80 + c % 0x40]
  else [0xEF, 0xBF, 0xBD]

/-- UTF-8 encoding of a string: the byte sequence `Buffer.from(s)` holds. -/
def utf8Encode : Str → Bytes
  | [] => []
  | c :: rest => utf8EncodeChar c ++ utf8Encode rest

/-- Is `b` a UTF-8 continuation byte? -/
def isCont (b : Nat) : Bool := 0x80 ≤ b && b < 0xC0

/-- Allowed second byte of a multi-byte UTF-8 sequence with lead byte `b1`
(the WHATWG ranges ruling out overlong forms, surrogates and values above
U+10FFFF). -/
def cont2ok (b1 b2 : Nat) : Bool :=
  if b1 = 0xE0 then 0xA0 ≤ b2 && b2 < 0xC0
  else if b1 = 0xED then 0x80 ≤ b2 && b2 < 0xA0
  else if b1 = 0xF0 then 0x90 ≤ b2 && b2 < 0xC0
  else if b1 = 0xF4 then 0x80 ≤ b2 && b2 < 0x90
  else isCont b2

/-- UTF-8 decoding with U+FFFD replacement, following the WHATWG decoder used
by Node's `buf.toString("utf8")`: an invalid or truncated sequence contributes
one replacement character for its maximal valid subpart, and decoding resumes
at the offending byte. -/
def utf8Decode : Bytes → Str
  | [] => []
  | b1 :: t1 =>
    if b1 < 0x80 then b1 :: utf8Decode t1
    else if b1 < 0xC2 ∨ 0xF4 < b1 then 0xFFFD :: utf8Decode t1
    else if b1 < 0xE0 then
      match t1 with
      | [] => [0xFFFD]
      | b2 :: t2 =>
        if isCont b2 then ((b1 - 0xC0) * 0x40 + (b2 - 0x80)) :: utf8Decode t2
        else 0xFFFD :: utf8Decode (b2 :: t2)
    else if b1 < 0xF0 then
      match t1 with
      | [] => [0xFFFD]
      | b2 :: t2 =>
        if cont2ok b1 b2 then
          match t2 with
          | [] => [0xFFFD]
          | b3 :: t3 =>
            if isCont b3 then
              ((b1 - 0xE0) * 0x1000 + (b2 - 0x80) * 0x40 + (b3 - 0x80)) ::
                utf8Decode t3
            else 0xFFFD :: utf8Decode (b3 :: t3)
        else 0xFFFD :: utf8Decode (b2 :: t2)
    else
      match t1 with
      | [] => [0xFFFD]
      | b2 :: t2 =>
        if cont2ok b1 b2 then
          match t2 with
          | [] => [0xFFFD]
          | b3 :: t3 =>
            if isCont b3 then
              match t3 with
              | [] => [0xFFFD]
              | b4 :: t4 =>
                if isCont b4 then
                  ((b1 - 0xF0) * 0x40000 + (b2 - 0x80) * 0x1000 +
                    (b3 - 0x80) * 0x40 + (b4 - 0x80)) :: utf8Decode t4
                else 0xFFFD :: utf8Decode (b4 :: t4)
            else 0xFFFD :: utf8Decode (b3 :: t3)
        else 0xFFFD :: utf8Decode (b2 :: t2)

/-! ## SHA-256 / SHA-512 and HMAC (models of Node `crypto`)

The hash constants are derived, as in FIPS 180-4, from the fractional parts
of the square roots (initial hash values) and cube roots (round constants)
of the first primes. -/

/-- Trial-division primality test, adequate for generating small primes. -/
def isPrimeNat (n : Nat) : Bool :=
  2 ≤ n && (List.range (n - 2)).all (fun d => n % (d + 2) ≠ 0 || d + 2 = n)

/-- The first `n` prime numbers. -/
def firstPrimes (n : Nat) : List Nat :=
  ((List.range 420).filter isPrimeNat).take n

/-- Integer cube root by binary descent (valid for arguments below `2^210`). -/
def icbrtGo : Nat → Nat → Nat → Nat
  | 0, _, acc => acc
  | i + 1, n, acc =>
    icbrtGo i n (if (acc + 2 ^ i) ^ 3 ≤ n then acc + 2 ^ i else acc)

/-- Integer cube root. -/
def icbrt (n : Nat) : Nat := icbrtGo 70 n 0

/-- First `w` bits of the fractional part of the square root of `p`. -/
def fracSqrtBits (w p : Nat) : Nat := Nat.sqrt (p * 2 ^ (2 * w)) % 2 ^ w

/-- First `w` bits of the fractional part of the cube root of `p`. -/
def fracCbrtBits (w p : Nat) : Nat := icbrt (p * 2 ^ (3 * w)) % 2 ^ w

/-- The eight working variables of a SHA-2 computation. -/
structure Hash8 where
  a : Nat
  b : Nat
  c : Nat
  d : Nat
  e : Nat
  f : Nat
  g : Nat
  h : Nat

/-- Rotate the `bits`-bit word `x` right by `n`. -/
def rotr (bits n x : Nat) : Nat := (x % 2 ^ n) * 2 ^ (bits - n) + x / 2 ^ n

/-- SHA-2 choice function on `bits`-bit words. -/
def shaCh (bits x y z : Nat) : Nat := (x &&& y) ^^^ ((x ^^^ (2 ^ bits - 1)) &&& z)

/-- SHA-2 majority function. -/
def shaMaj (x y z : Nat) : Nat := (x &&& y) ^^^ (x &&& z) ^^^ (y &&& z)

/-- Big-endian bytes of `n`, `k` bytes wide. -/
def beBytes : Nat → Nat → Bytes
  | 0, _ => []
  | k + 1, n => (n / 2 ^ (8 * k)) % 256 :: beBytes k n

/-- Big-endian value of a byte list. -/
def beVal (bs : Bytes) : Nat := bs.foldl (fun acc b => acc * 256 + b) 0

/-- SHA-2 message padding: append `0x80`, zeros, and the bit length in a
`lenBytes`-byte big-endian field, reaching a multiple of `blockBytes`. -/
def padMsg (blockBytes lenBytes : Nat) (msg : Bytes) : Bytes :=
  let l := msg.length
  let zeros := (blockBytes - (l + 1 + lenBytes) % blockBytes) % blockBytes
  msg ++ 0x80 :: (List.replicate zeros 0 ++ beBytes lenBytes (8 * l))

/-- Split a byte list into chunks of `size` bytes (`fuel` bounds recursion). -/
def chunksB (size : Nat) : Nat → Bytes → List Bytes
  | 0, _ => []
  | _, [] => []
  | fuel + 1, bs => bs.take size :: chunksB size fuel (bs.drop size)

/-- Group bytes into big-endian words of `wBytes` bytes. -/
def wordsOfBytes (wBytes : Nat) : Nat → Bytes → List Nat
  | 0, _ => []
  | _, [] => []
  | fuel + 1, bs => beVal (bs.take wBytes) :: wordsOfBytes wBytes fuel (bs.drop wBytes)

/-- Extend a 16-word message schedule by `k` further words, using the small
sigma functions `s0`, `s1` and reducing modulo `2 ^ bits`. -/
def extendW (bits : Nat) (s0 s1 : Nat → Nat) : Nat → List Nat → List Nat
  | 0, ws => ws
  | k + 1, ws =>
    let n := ws.length
    extendW bits s0 s1 k
      (ws ++ [(ws.getD (n - 16) 0 + s0 (ws.getD (n - 15) 0) +
               ws.getD (n - 7) 0 + s1 (ws.getD (n - 2) 0)) % 2 ^ bits])

/-- One SHA-2 compression round with round constant `k` and schedule word
`w`, using the big sigma functions `bS0`, `bS1`. -/
def shaStep (bits : Nat) (bS0 bS1 : Nat → Nat) (st : Hash8) (k w : Nat) : Hash8 :=
  let t1 := (st.h + bS1 st.e + shaCh bits st.e st.f st.g + k + w) % 2 ^ bits
  let t2 := (bS0 st.a + shaMaj st.a st.b st.c) % 2 ^ bits
  ⟨(t1 + t2) % 2 ^ bits, st.a, st.b, st.c, (st.d + t1) % 2 ^ bits, st.e, st.f, st.g⟩

/-- Add two eight-word states modulo `2 ^ bits`. -/
def addState (bits : Nat) (x y : Hash8) : Hash8 :=
  ⟨(x.a + y.a) % 2 ^ bits, (x.b + y.b) % 2 ^ bits, (x.c + y.c) % 2 ^ bits,
   (x.d + y.d) % 2 ^ bits, (x.e + y.e) % 2 ^ bits, (x.f + y.f) % 2 ^ bits,
   (x.g + y.g) % 2 ^ bits, (x.h + y.h) % 2 ^ bits⟩

/-- SHA-256 small sigma 0. -/
def ssig256_0 (x : Nat) : Nat := rotr 32 7 x ^^^ rotr 32 18 x ^^^ x / 2 ^ 3

/-- SHA-256 small sigma 1. -/
def ssig256_1 (x : Nat) : Nat := rotr 32 17 x ^^^ rotr 32 19 x ^^^ x / 2 ^ 10

/-- SHA-256 big sigma 0. -/
def bsig256_0 (x : Nat) : Nat := rotr 32 2 x ^^^ rotr 32 13 x ^^^ rotr 32 22 x

/-- SHA-256 big sigma 1. -/
def bsig256_1 (x : Nat) : Nat := rotr 32 6 x ^^^ rotr 32 11 x ^^^ rotr 32 25 x

/-- The 64 SHA-256 round constants. -/
def K256 : List Nat := (firstPrimes 64).map (fracCbrtBits 32)

/-- The initial SHA-256 hash value. -/
def H256 : Hash8 :=
  ⟨fracSqrtBits 32 2, fracSqrtBits 32 3, fracSqrtBits 32 5, fracSqrtBits 32 7,
   fracSqrtBits 32 11, fracSqrtBits 32 13, fracSqrtBits 32 17, fracSqrtBits 32 19⟩

/-- SHA-256 compression of one 64-byte block. -/
def compress256 (st : Hash8) (block : Bytes) : Hash8 :=
  let ws := extendW 32 ssig256_0 ssig256_1 48 (wordsOfBytes 4 64 block)
  addState 32 st
    ((ws.zip K256).foldl (fun s p => shaStep 32 bsig256_0 bsig256_1 s p.2 p.1) st)

/-- SHA-256 of a byte sequence. -/
def sha256 (msg : Bytes) : Bytes :=
  let st := (chunksB 64 (padMsg 64 8 msg).length (padMsg 64 8 msg)).foldl compress256 H256
  beBytes 4 st.a ++ beBytes 4 st.b ++ beBytes 4 st.c ++ beBytes 4 st.d ++
  beBytes 4 st.e ++ beBytes 4 st.f ++ beBytes 4 st.g ++ beBytes 4 st.h

/-- SHA-512 small sigma 0. -/
def ssig512_0 (x : Nat) : Nat := rotr 64 1 x ^^^ rotr 64 8 x ^^^ x / 2 ^ 7

/-- SHA-512 small sigma 1. -/
def ssig512_1 (x : Nat) : Nat := rotr 64 19 x ^^^ rotr 64 61 x ^^^ x / 2 ^ 6

/-- SHA-512 big sigma 0. -/
def bsig512_0 (x : Nat) : Nat := rotr 64 28 x ^^^ rotr 64 34 x ^^^ rotr 64 39 x

/-- SHA-512 big sigma 1. -/
def bsig512_1 (x : Nat) : Nat := rotr 64 14 x ^^^ rotr 64 18 x ^^^ rotr 64 41 x

/-- The 80 SHA-512 round constants. -/
def K512 : List Nat := (firstPrimes 80).map (fracCbrtBits 64)

/-- The initial SHA-512 hash value. -/
def H512 : Hash8 :=
  ⟨fracSqrtBits 64 2, fracSqrtBits 64 3, fracSqrtBits 64 5, fracSqrtBits 64 7,
   fracSqrtBits 64 11, fracSqrtBits 64 13, fracSqrtBits 64 17, fracSqrtBits 64 19⟩

/-- SHA-512 compression of one 128-byte block. -/
def compress512 (st : Hash8) (block : Bytes) : Hash8 :=
  let ws := extendW 64 ssig512_0 ssig512_1 64 (wordsOfBytes 8 128 block)
  addState 64 st
    ((ws.zip K512).foldl (fun s p => shaStep 64 bsig512_0 bsig512_1 s p.2 p.1) st)

/-- SHA-512 of a byte sequence. -/
def sha512 (msg : Bytes) : Bytes :=
  let st := (chunksB 128 (padMsg 128 16 msg).length (padMsg 128 16 msg)).foldl compress512 H512
  beBytes 8 st.a ++ beBytes 8 st.b ++ beBytes 8 st.c ++ beBytes 8 st.d ++
  beBytes 8 st.e ++ beBytes 8 st.f ++ beBytes 8 st.g ++ beBytes 8 st.h

/-- HMAC (RFC 2104) over a hash with block size `blockBytes`. -/
def hmac (hash : Bytes → Bytes) (blockBytes : Nat) (key msg : Bytes) : Bytes :=
  let k0 := if blockBytes < key.length then hash key else key
  let kp := k0 ++ List.replicate (blockBytes - k0.length) 0
  hash ((kp.map (fun b => b ^^^ 0x5C)) ++ hash ((kp.map (fun b => b ^^^ 0x36)) ++ msg))

/-- Lowercase hexadecimal digit of a value below 16. -/
def hexDigit (d : Nat) : Nat := if d < 10 then 48 + d else 87 + d

/-- Lowercase hexadecimal rendering of a byte sequence (as code points). -/
def hexOfBytes : Bytes → Str
  | [] => []
  | b :: rest => hexDigit (b / 16) :: hexDigit (b % 16) :: hexOfBytes rest

/-- `crypto.createHmac("sha256", key).update(msg).digest("hex")`. -/
def hmacSha256Hex (key msg : Bytes) : Str := hexOfBytes (hmac sha256 64 key msg)

/-- `crypto.createHmac("sha512", key).update(msg).digest("hex")`. -/
def hmacSha512Hex (key msg : Bytes) : Str := hexOfBytes (hmac sha512 128 key msg)

/-! ## JSON values and `JSON.parse` -/

/-- Parsed JSON values.  Numbers are exact rationals (see the header note on
IEEE-754 doubles). -/
inductive Json where
  | null : Json
  | bool (b : Bool) : Json
  | num (q : ℚ) : Json
  | str (s : Str) : Json
  | arr (xs : List Json) : Json
  | obj (kvs : List (Str × Json)) : Json

/-- A JavaScript value that may also be `undefined` (`none`). -/
abbrev JVal := Option Json

/-- JavaScript truthiness of a possibly-undefined value. -/
def jtruthy : JVal → Bool
  | none => false
  | some .null => false
  | some (.bool b) => b
  | some (.num q) => decide (q ≠ 0)
  | some (.str s) => !s.isEmpty
  | some (.arr _) => true
  | some (.obj _) => true

/-- The JavaScript `||` operator on values. -/
def jor (a b : JVal) : JVal := if jtruthy a then a else b

/-- The JavaScript `??` (nullish coalescing) operator, with a defined default. -/
def jnullish (a : JVal) (dflt : Json) : Json :=
  match a with
  | none => dflt
  | some .null => dflt
  | some v => v

/-- Property lookup in an association list (first match). -/
def jlookup (kvs : List (Str × Json)) (k : Str) : JVal :=
  match kvs with
  | [] => none
  | (k', v) :: rest => if k' == k then some v else jlookup rest k

/-- Optional-chained property access `v?.k`: `undefined` unless `v` is an
object with the property. -/
def jget (v : JVal) (k : Str) : JVal :=
  match v with
  | some (.obj kvs) => jlookup kvs k
  | _ => none

/-- Strict equality `v === "s"` between a value and a string constant. -/
def jstrEq (v : JVal) (s : Str) : Bool :=
  match v with
  | some (.str t) => t == s
  | _ => false

/-- Is `c` a JSON whitespace code point? -/
def isJsonWs (c : Nat) : Bool := c = 32 || c = 9 || c = 10 || c = 13

/-- Is `c` an ASCII digit? -/
def isDigitCp (c : Nat) : Bool := 48 ≤ c && c ≤ 57

/-- Skip JSON whitespace. -/
def skipWs : Str → Str
  | [] => []
  | c :: rest => if isJsonWs c then skipWs rest else c :: rest

/-- Numeric value of a digit string (most significant first). -/
def digitsVal (ds : Str) : Nat := ds.foldl (fun acc d => acc * 10 + (d - 48)) 0

/-- Parse a JSON number literal after an optional leading minus has been
consumed; returns its rational value and the rest of the input. -/
def parseNumTail (neg : Bool) (s : Str) : Option (ℚ × Str) :=
  let ip := s.takeWhile isDigitCp
  let rest0 := s.dropWhile isDigitCp
  if ip.isEmpty then none
  else if 48 = ip.headD 0 && 1 < ip.length then none
  else
    let withInt : ℚ := (digitsVal ip : ℚ)
    let step2 :=
      match rest0 with
      | 46 :: r1 =>
        let fp := r1.takeWhile isDigitCp
        if fp.isEmpty then none
        else some ((withInt + (digitsVal fp : ℚ) / ((10 : ℚ) ^ fp.length)),
                   r1.dropWhile isDigitCp)
      | _ => some (withInt, rest0)
    match step2 with
    | none => none
    | some (mag, rest1) =>
      let step3 :=
        match rest1 with
        | e :: r2 =>
          if e = 101 || e = 69 then
            let signRest :=
              match r2 with
              | 43 :: r3 => some (false, r3)
              | 45 :: r3 => some (true, r3)
              | _ => some (false, r2)
            match signRest with
            | some (eneg, r3) =>
              let ed := r3.takeWhile isDigitCp
              if ed.isEmpty then none
              else
                let ev : ℤ := if eneg then -(digitsVal ed : ℤ) else (digitsVal ed : ℤ)
                some (mag * (10 : ℚ) ^ ev, r3.dropWhile isDigitCp)
            | none => none
          else some (mag, rest1)
        | [] => some (mag, rest1)
      match step3 with
      | none => none
      | some (v, rest2) => some ((if neg then -v else v), rest2)

/-- Value of an ASCII hex digit, if any. -/
def hexVal (c : Nat) : Option Nat :=
  if 48 ≤ c && c ≤ 57 then some (c - 48)
  else if 97 ≤ c && c ≤ 102 then some (c - 87)
  else if 65 ≤ c && c ≤ 70 then some (c - 55)
  else none

/-- Parse the four hex digits of a `\u` escape. -/
def parseHex4 : Str → Option (Nat × Str)
  | c1 :: c2 :: c3 :: c4 :: rest =>
    match hexVal c1, hexVal c2, hexVal c3, hexVal c4 with
    | some v1, some v2, some v3, some v4 =>
      some (((v1 * 16 + v2) * 16 + v3) * 16 + v4, rest)
    | _, _, _, _ => none
  | _ => none

/-- Parse the body of a JSON string (the opening quote already consumed),
combining surrogate-pair escapes into a single code point as a JS string
viewed through code points does. -/
def parseStrTail : Nat → Str → Option (Str × Str)
  | 0, _ => none
  | _ + 1, [] => none
  | fuel + 1, c :: rest =>
    if c = 34 then some ([], rest)
    else if c = 92 then
      match rest with
      | [] => none
      | e :: r1 =>
        if e = 117 then
          match parseHex4 r1 with
          | none => none
          | some (u, r2) =>
            if 0xD800 ≤ u && u < 0xDC00 then
              match r2 with
              | 92 :: 117 :: r3 =>
                match parseHex4 r3 with
                | some (u2, r4) =>
                  if 0xDC00 ≤ u2 && u2 < 0xE000 then
                    match parseStrTail fuel r4 with
                    | some (cs, r5) =>
                      some ((0x10000 + (u - 0xD800) * 0x400 + (u2 - 0xDC00)) :: cs, r5)
                    | none => none
                  else
                    match parseStrTail fuel r2 with
                    | some (cs, r5) => some (u :: cs, r5)
                    | none => none
                | none =>
                  match parseStrTail fuel r2 with
                  | some (cs, r5) => some (u :: cs, r5)
                  | none => none
              | _ =>
                match parseStrTail fuel r2 with
                | some (cs, r5) => some (u :: cs, r5)
                | none => none
            else
              match parseStrTail fuel r2 with
              | some (cs, r5) => some (u :: cs, r5)
              | none => none
        else
          let esc : Option Nat :=
            if e = 34 then some 34
            else if e = 92 then some 92
            else if e = 47 then some 47
            else if e = 98 then some 8
            else if e = 102 then some 12
            else if e = 110 then some 10
            else if e = 114 then some 13
            else if e = 116 then some 9
            else none
          match esc with
          | none => none
          | some ec =>
            match parseStrTail fuel r1 with
            | some (cs, r2) => some (ec :: cs, r2)
            | none => none
    else if c < 32 then none
    else
      match parseStrTail fuel rest with
      | some (cs, r1) => some (c :: cs, r1)
      | none => none

/-- Insert a key into an object under construction, overwriting an existing
binding in place as `JSON.parse` does for duplicate keys. -/
def objInsert (kvs : List (Str × Json)) (k : Str) (v : Json) : List (Str × Json) :=
  match kvs with
  | [] => [(k, v)]
  | (k', v') :: rest =>
    if k' == k then (k', v) :: rest else (k', v') :: objInsert rest k v

/-- Does the input start with the given ASCII keyword? -/
def startsWithKw (kw : Str) (s : Str) : Option Str :=
  match kw, s with
  | [], rest => some rest
  | k :: kt, c :: ct => if c = k then startsWithKw kt ct else none
  | _ :: _, [] => none

mutual

/-- Parse one JSON value (leading whitespace skipped first). -/
def parseVal : Nat → Str → Option (Json × Str)
  | 0, _ => none
  | fuel + 1, s =>
    match skipWs s with
    | [] => none
    | c :: rest =>
      if c = 110 then
        match startsWithKw (strLit ("ull")) rest with
        | some r => some (.null, r)
        | none => none
      else if c = 116 then
        match startsWithKw (strLit ("rue")) rest with
        | some r => some (.bool true, r)
        | none => none
      else if c = 102 then
        match startsWithKw (strLit ("alse")) rest with
        | some r => some (.bool false, r)
        | none => none
      else if c = 34 then
        match parseStrTail (rest.length + 1) rest with
        | some (cs, r) => some (.str cs, r)
        | none => none
      else if c = 45 then
        match parseNumTail true rest with
        | some (q, r) => some (.num q, r)
        | none => none
      else if isDigitCp c then
        match parseNumTail false (c :: rest) with
        | some (q, r) => some (.num q, r)
        | none => none
      else if c = 91 then
        match skipWs rest with
        | 93 :: r => some (.arr [], r)
        | r1 => parseArrItems fuel r1 []
      else if c = 123 then
        match skipWs rest with
        | 125 :: r => some (.obj [], r)
        | r1 => parseObjItems fuel r1 []
      else none

/-- Parse the remaining items of a non-empty JSON array. -/
def parseArrItems : Nat → Str → List Json → Option (Json × Str)
  | 0, _, _ => none
  | fuel + 1, s, acc =>
    match parseVal fuel s with
    | none => none
    | some (v, r) =>
      match skipWs r with
      | 44 :: r1 => parseArrItems fuel r1 (acc ++ [v])
      | 93 :: r1 => some (.arr (acc ++ [v]), r1)
      | _ => none

/-- Parse the remaining members of a non-empty JSON object. -/
def parseObjItems : Nat → Str → List (Str × Json) → Option (Json × Str)
  | 0, _, _ => none
  | fuel + 1, s, acc =>
    match skipWs s with
    | 34 :: r0 =>
      match parseStrTail (r0.length + 1) r0 with
      | none => none
      | some (k, r1) =>
        match skipWs r1 with
        | 58 :: r2 =>
          match parseVal fuel r2 with
          | none => none
          | some (v, r3) =>
            match skipWs r3 with
            | 44 :: r4 => parseObjItems fuel r4 (objInsert acc k v)
            | 125 :: r4 => some (.obj (objInsert acc k v), r4)
            | _ => none
        | _ => none
    | _ => none

end

/-- `JSON.parse`: parse a complete JSON text, rejecting trailing garbage. -/
def jsonParse (s : Str) : Option Json :=
  match parseVal (s.length + 1) s with
  | some (v, rest) => if (skipWs rest).isEmpty then some v else none
  | none => none

/-! ## String constants used by the handlers -/

/-- The string constant x-signature is implicit in the request model; these
are the field names read by the handlers. -/
def metaS : Str := strLit ("meta")

/-- Field name event_name. -/
def eventNameS : Str := strLit ("event_name")

/-- Field name event. -/
def eventS : Str := strLit ("event")

/-- Event name order_created. -/
def orderCreatedS : Str := strLit ("order_created")

/-- Event name subscription_payment_success. -/
def subPaySuccessS : Str := strLit ("subscription_payment_success")

/-- Field name data. -/
def dataS : Str := strLit ("data")

/-- Field name attributes. -/
def attributesS : Str := strLit ("attributes")

/-- Field name user_email. -/
def userEmailS : Str := strLit ("user_email")

/-- Field name customer_email. -/
def customerEmailS : Str := strLit ("customer_email")

/-- Field name currency. -/
def currencyS : Str := strLit ("currency")

/-- Field name total. -/
def totalS : Str := strLit ("total")

/-- Field name custom. -/
def customS : Str := strLit ("custom")

/-- Field name websiteType. -/
def websiteTypeS : Str := strLit ("websiteType")

/-- Field name custom_data. -/
def customDataS : Str := strLit ("custom_data")

/-- Default currency USD. -/
def usdS : Str := strLit ("USD")

/-- Default website type unknown. -/
def unknownS : Str := strLit ("unknown")

/-- Field name payment_status. -/
def paymentStatusS : Str := strLit ("payment_status")

/-- Status value finished. -/
def finishedS : Str := strLit ("finished")

/-- Field name price_amount. -/
def priceAmountS : Str := strLit ("price_amount")

/-- Field name price_currency. -/
def priceCurrencyS : Str := strLit ("price_currency")

/-- Field name order_description. -/
def orderDescriptionS : Str := strLit ("order_description")

/-- The JSON text of an empty object, the fallback in JSON.parse of the
expression req.rawBody or the two-character object literal. -/
def emptyObjS : Str := strLit ("\x7b\x7d")

/-! ## Signature verification (`verifyLemonSignature`, `verifyNowPaymentsSignature`) -/

/-- `crypto.timingSafeEqual(Buffer.from(a), Buffer.from(b))`: boolean equality
for equal-length buffers, a thrown `ERR_CRYPTO_TIMING_SAFE_EQUAL_LENGTH`
(modelled as `Except.error ()`) otherwise. -/
def timingSafeEqual (a b : Bytes) : Except Unit Bool :=
  if a.length = b.length then .ok (a == b) else .error ()

/-- Shared shape of the two verifier functions of src/index.js: guard on the
three falsy checks, recompute the keyed digest of the UTF-8 bytes of the
captured raw-body string, and compare buffers.  `hmacHex` is the provider's
hex-encoded keyed digest. -/
def verifySigWith (hmacHex : Bytes → Bytes → Str)
    (raw header secret : Option Str) : Except Unit Bool :=
  match raw, header, secret with
  | some r, some h, some k =>
    if r.isEmpty || h.isEmpty || k.isEmpty then .ok false
    else
      let digest := hmacHex (utf8Encode k) (utf8Encode r)
      timingSafeEqual (utf8Encode h) (utf8Encode digest)
  | _, _, _ => .ok false

/-- `verifyLemonSignature(raw, header, secret)` — HMAC-SHA256, hex. -/
def verifyLemonSignature (raw header secret : Option Str) : Except Unit Bool :=
  verifySigWith hmacSha256Hex raw header secret

/-- `verifyNowPaymentsSignature(raw, header, secret)` — HMAC-SHA512, hex. -/
def verifyNowPaymentsSignature (raw header secret : Option Str) : Except Unit Bool :=
  verifySigWith hmacSha512Hex raw header secret

/-- The hex digest a LemonSqueezy webhook must carry for a given signing
secret and captured raw-body string. -/
def lemonSign (secret body : Str) : Str :=
  hmacSha256Hex (utf8Encode secret) (utf8Encode body)

/-- The hex digest a NOWPayments webhook must carry. -/
def nowSign (secret body : Str) : Str :=
  hmacSha512Hex (utf8Encode secret) (utf8Encode body)

/-! ## Raw-body capture (`rawBodySaver`) -/

/-- `rawBodySaver`: `req.rawBody = buf.toString("utf8")` is assigned only for
a non-empty body buffer; an empty body leaves `req.rawBody` undefined. -/
def rawBodyOf (body : Bytes) : Option Str :=
  if body.isEmpty then none else some (utf8Decode body)

/-! ## Order extraction and notification -/

/-- A JavaScript value as it appears in an extracted order field:
`undefined`, `NaN` (which plain JSON cannot carry), or a JSON value. -/
inductive JsVal where
  | undef : JsVal
  | nan : JsVal
  | val (j : Json) : JsVal

/-- View a possibly-undefined value as a `JsVal`. -/
def JsVal.ofJVal : JVal → JsVal
  | none => .undef
  | some j => .val j

/-- JavaScript `ToNumber` on a JSON value, as used by the `/` operator.
Strings are parsed as decimal numeric literals (the engine's full grammar
also has hex/binary/infinity forms, and objects convert via `toString`;
those cases are out of the reachable range of the claims and map to `none`,
i.e. NaN). -/
def toNumber : Json → Option ℚ
  | .num q => some q
  | .bool b => some (if b then 1 else 0)
  | .null => some 0
  | .str s =>
    let t := s.dropWhile isJsonWs
    let t := (t.reverse.dropWhile isJsonWs).reverse
    if t.isEmpty then some 0
    else
      let core :=
        match t with
        | 45 :: r => (parseNumTail true r : Option (ℚ × Str))
        | 43 :: r => parseNumTail false r
        | r => parseNumTail false r
      match core with
      | some (q, []) => some q
      | _ => none
  | .arr _ => none
  | .obj _ => none

/-- JavaScript division of two values (divisor here is always the literal
100, so the zero-divisor and infinity cases never arise). -/
def jsDiv (a b : Json) : JsVal :=
  match toNumber a, toNumber b with
  | some p, some q => if q = 0 then .nan else .val (.num (p / q))
  | _, _ => .nan

/-- The normalized order fields passed to `notifyOrder`. -/
structure OrderNotification where
  buyerEmail : JsVal
  websiteType : JsVal
  amount : JsVal
  currency : JsVal
  raw : Json

/-- Environment configuration and the outcome of the mail transport: the
process-wide inputs a single request can observe.  `mailOk` models whether
`transporter.sendMail` succeeds during this request. -/
structure Env where
  lemonSecret : Option Str
  nowSecret : Option Str
  ownerEmail : Option Str
  sendBuyerConfirmation : Bool
  mailOk : Bool

/-- Truthiness of an optional environment string (`undefined` and the empty
string are falsy). -/
def truthyEnv : Option Str → Bool
  | none => false
  | some s => !s.isEmpty

/-- The JavaScript `\s` character class (whitespace and line terminators). -/
def isJsSpace (c : Nat) : Bool :=
  (9 ≤ c && c ≤ 13) || c = 32 || c = 0xA0 || c = 0x1680 ||
  (0x2000 ≤ c && c ≤ 0x200A) || c = 0x2028 || c = 0x2029 ||
  c = 0x202F || c = 0x205F || c = 0x3000 || c = 0xFEFF

/-- Does `s` contain a match of the regular expression of a non-space run,
an at sign, a non-space run, a dot, and a non-space run?  A match places an
at sign at `i` and a dot at `d` with non-space characters immediately before
`i`, strictly between `i` and `d`, and immediately after `d`. -/
def emailShape (s : Str) : Bool :=
  let n := s.length
  let nonSp (i : Nat) : Bool := !isJsSpace (s.getD i 0)
  (List.range n).any (fun i =>
    (List.range n).any (fun d =>
      i + 2 ≤ d && d + 1 < n && s.getD i 0 = 64 && s.getD d 0 = 46 &&
      1 ≤ i && nonSp (i - 1) && nonSp (d + 1) &&
      ((List.range (d - i - 1)).all (fun k => nonSp (i + 1 + k)))))

/-- The buyer-confirmation regex test of `notifyOrder`, applied to the
buyer-email value (non-string values never match the shape). -/
def emailShapeJs : JsVal → Bool
  | .val (.str s) => emailShape s
  | _ => false

/-- `notifyOrder`: throws when `OWNER_EMAIL` is unset or empty, then awaits
the owner send, then optionally the buyer confirmation; a `sendMail` failure
is a thrown error. -/
def notifyOrder (env : Env) (n : OrderNotification) : Except Unit Unit :=
  if !truthyEnv env.ownerEmail then .error ()
  else if !env.mailOk then .error ()
  else
    if jtruthy (match n.buyerEmail with | .val j => some j | _ => none) &&
       emailShapeJs n.buyerEmail && env.sendBuyerConfirmation then
      if !env.mailOk then .error () else .ok ()
    else .ok ()

/-- Lowercase an ASCII letter code point (`String.prototype.toLowerCase`
restricted to the ASCII range that a word-character capture can contain). -/
def lowerAscii (c : Nat) : Nat := if 65 ≤ c && c ≤ 90 then c + 32 else c

/-- The regex word-character class (ASCII letters, digits, underscore). -/
def isWordChar (c : Nat) : Bool :=
  (48 ≤ c && c ≤ 57) || (65 ≤ c && c ≤ 90) || (97 ≤ c && c ≤ 122) || c = 95

/-- Try to match the literal `type=` (case-insensitively) at the head of the
input, returning the remainder on success. -/
def typeEqHead : Str → Option Str
  | t :: y :: p :: e :: q :: rest =>
    if lowerAscii t = 116 && lowerAscii y = 121 && lowerAscii p = 112 &&
       lowerAscii e = 101 && q = 61 then some rest
    else none
  | _ => none

/-- First match of the case-insensitive regex of the literal `type=`
followed by a captured non-empty greedy word-character run: the engine scans
left to right and, if the literal matches but no word character follows,
resumes the scan one position later. -/
def regexTypeMatch : Str → Option Str
  | [] => none
  | c :: rest =>
    match typeEqHead (c :: rest) with
    | some after =>
      let w := after.takeWhile isWordChar
      if w.isEmpty then regexTypeMatch rest else some w
    | none => regexTypeMatch rest

/-- The LemonSqueezy handler's `data` binding: `evt?.data || {}`. -/
def lemonData (evt : Json) : JVal := jor (jget (some evt) dataS) (some (.obj []))

/-- The LemonSqueezy handler's `attributes` binding:
`data?.attributes || {}`. -/
def lemonAttributes (evt : Json) : JVal :=
  jor (jget (lemonData evt) attributesS) (some (.obj []))

/-- The classified LemonSqueezy event type:
`evt?.meta?.event_name || evt?.event`. -/
def lemonEventType (evt : Json) : JVal :=
  jor (jget (jget (some evt) metaS) eventNameS) (jget (some evt) eventS)

/-- Is the LemonSqueezy event type one of the two success signals? -/
def lemonIsSuccess (evt : Json) : Bool :=
  jstrEq (lemonEventType evt) orderCreatedS ||
  jstrEq (lemonEventType evt) subPaySuccessS

/-- Order extraction in the LemonSqueezy handler's success branch. -/
def lemonExtract (evt : Json) : OrderNotification :=
  let attributes := lemonAttributes evt
  { buyerEmail := .ofJVal (jor (jor (jget attributes userEmailS)
                                    (jget attributes customerEmailS))
                               (some .null))
    websiteType := .ofJVal (jor (jor (jget (jget attributes customS) websiteTypeS)
                                     (jget (jget (jget (some evt) metaS) customDataS)
                                           websiteTypeS))
                                (some (.str unknownS)))
    amount := jsDiv (jnullish (jget attributes totalS) (.num 0)) (.num 100)
    currency := .ofJVal (jor (jget attributes currencyS) (some (.str usdS)))
    raw := evt }

/-- Is the NOWPayments event a success:
`evt?.payment_status === "finished"`. -/
def nowIsSuccess (evt : Json) : Bool := jstrEq (jget (some evt) paymentStatusS) finishedS

/-- The NOWPayments website-type parse: `"unknown"` unless
`order_description` is a string containing a `type=` word token. -/
def nowWebsiteType (evt : Json) : Str :=
  match jget (some evt) orderDescriptionS with
  | some (.str s) =>
    match regexTypeMatch s with
    | some w => w.map lowerAscii
    | none => unknownS
  | _ => unknownS

/-- Order extraction in the NOWPayments handler's success branch. -/
def nowExtract (evt : Json) : OrderNotification :=
  { buyerEmail := .ofJVal (jor (jget (some evt) customerEmailS) (some .null))
    websiteType := .val (.str (nowWebsiteType evt))
    amount := .ofJVal (jget (some evt) priceAmountS)
    currency := .ofJVal (jor (jget (some evt) priceCurrencyS) (some (.str usdS)))
    raw := evt }

/-! ## Route handlers -/

/-- A webhook request as the two handlers observe it: the raw body bytes and
the value of the provider's signature header (`x-signature` for
LemonSqueezy, `x-nowpayments-sig` for NOWPayments), absent if not sent. -/
structure WebhookReq where
  body : Bytes
  sigHeader : Option Str

/-- Outcome of one handled request: the HTTP status code sent, and the
notification attempts (`notifyOrder` invocations) made, in order. -/
abbrev HandlerResult := Nat × List OrderNotification

/-- The body of the LemonSqueezy handler after signature verification and
JSON parsing: classify, extract, notify, answer 200 (or 500 if the awaited
`notifyOrder` rejects). -/
def lemonProcess (env : Env) (evt : Json) : HandlerResult :=
  if lemonIsSuccess evt then
    let n := lemonExtract evt
    match notifyOrder env n with
    | .ok _ => (200, [n])
    | .error _ => (500, [n])
  else (200, [])

/-- The NOWPayments counterpart of `lemonProcess`. -/
def nowProcess (env : Env) (evt : Json) : HandlerResult :=
  if nowIsSuccess evt then
    let n := nowExtract evt
    match notifyOrder env n with
    | .ok _ => (200, [n])
    | .error _ => (500, [n])
  else (200, [])

/-- The argument of `JSON.parse` in both handlers:
`req.rawBody || "{}"`. -/
def parseInput (raw : Option Str) : Str :=
  match raw with
  | some s => if s.isEmpty then emptyObjS else s
  | none => emptyObjS

/-- `app.post("/webhook/lemonsqueezy")`: verify the signature (a thrown
comparison error is caught by the handler's catch-all and answered 500),
reject with 400 on failure, parse the raw body, process the event.  The
result returns the response status and the notification attempts. -/
def handleLemon (env : Env) (req : WebhookReq) : HandlerResult :=
  match verifyLemonSignature (rawBodyOf req.body) req.sigHeader env.lemonSecret with
  | .error _ => (500, [])
  | .ok false => (400, [])
  | .ok true =>
    match jsonParse (parseInput (rawBodyOf req.body)) with
    | none => (500, [])
    | some evt => lemonProcess env evt

/-- `app.post("/webhook/nowpayments")`: the NOWPayments route handler. -/
def handleNow (env : Env) (req : WebhookReq) : HandlerResult :=
  match verifyNowPaymentsSignature (rawBodyOf req.body) req.sigHeader env.nowSecret with
  | .error _ => (500, [])
  | .ok false => (400, [])
  | .ok true =>
    match jsonParse (parseInput (rawBodyOf req.body)) with
    | none => (500, [])
    | some evt => nowProcess env evt

/-! ## Concrete fixtures used by counterexamples and witnesses -/

/-- An environment with a configured LemonSqueezy secret. -/
def envC1 : Env := ⟨some (strLit ("s")), none, none, false, true⟩

/-- A LemonSqueezy request with body byte `0x78` and a three-character
signature header, shorter than any SHA-256 hex digest. -/
def reqC1 : WebhookReq := ⟨[120], some (strLit ("abc"))⟩

/-- An environment with no configured secrets. -/
def envNoSecrets : Env := ⟨none, none, some (strLit ("o@x.c")), false, true⟩

/-- A LemonSqueezy `order_created` event value. -/
def evtOrderCreated : Json :=
  .obj [(metaS, .obj [(eventNameS, .str orderCreatedS)])]

/-- A NOWPayments `finished` event with the order-description fixture of the
spec. -/
def evtNowFinished : Json :=
  .obj [(paymentStatusS, .str finishedS),
        (orderDescriptionS, .str (strLit ("type=AI;email=x@y.com")))]

/-- A LemonSqueezy event carrying `data.attributes.total = 2500`. -/
def evtLemonTotal : Json :=
  .obj [(dataS, .obj [(attributesS, .obj [(totalS, .num 2500)])])]

/-- A NOWPayments event carrying `price_amount = 25`. -/
def evtNowAmount : Json := .obj [(priceAmountS, .num 25)]

/-- A NOWPayments `finished` event with no `price_amount` field. -/
def evtNowNoAmount : Json := .obj [(paymentStatusS, .str finishedS)]

/-! # Theorems -/

/-! ## Byte-level infrastructure lemmas -/

theorem beBytes_length (k n : Nat) : (beBytes k n).length = k := by
  induction k generalizing n with
  | zero => rfl
  | succ k ih => simp [beBytes, ih]

theorem beBytes_lt (k n : Nat) : ∀ x ∈ beBytes k n, x < 256 := by
  induction k generalizing n with
  | zero => simp [beBytes]
  | succ k ih =>
    intro x hx
    simp only [beBytes, List.mem_cons] at hx
    rcases hx with h | h
    · omega
    · exact ih n x h

theorem sha256_length (m : Bytes) : (sha256 m).length = 32 := by
  simp [sha256, beBytes_length]

theorem sha512_length (m : Bytes) : (sha512 m).length = 64 := by
  simp [sha512, beBytes_length]

theorem sha256_mem_lt (m : Bytes) : ∀ x ∈ sha256 m, x < 256 := by
  intro x hx
  simp only [sha256, List.mem_append] at hx
  rcases hx with ((((((h | h) | h) | h) | h) | h) | h) | h <;>
    exact beBytes_lt _ _ x h

theorem sha512_mem_lt (m : Bytes) : ∀ x ∈ sha512 m, x < 256 := by
  intro x hx
  simp only [sha512, List.mem_append] at hx
  rcases hx with ((((((h | h) | h) | h) | h) | h) | h) | h <;>
    exact beBytes_lt _ _ x h

theorem hexOfBytes_length (bs : Bytes) : (hexOfBytes bs).length = 2 * bs.length := by
  induction bs with
  | nil => rfl
  | cons b t ih => simp [hexOfBytes, ih]; ring

theorem hexDigit_lt (d : Nat) (h : d < 16) : hexDigit d < 128 := by
  unfold hexDigit; split <;> omega

theorem hexOfBytes_ascii (bs : Bytes) (h : ∀ b ∈ bs, b < 256) :
    ∀ c ∈ hexOfBytes bs, c < 128 := by
  induction bs with
  | nil => simp [hexOfBytes]
  | cons b t ih =>
    intro c hc
    simp only [hexOfBytes, List.mem_cons] at hc
    have hb : b < 256 := h b (by simp)
    rcases hc with rfl | rfl | hc
    · exact hexDigit_lt _ (by omega)
    · exact hexDigit_lt _ (by omega)
    · exact ih (fun x hx => h x (by simp [hx])) c hc

theorem utf8EncodeChar_ascii (c : Nat) (h : c < 128) : utf8EncodeChar c = [c] := by
  simp [utf8EncodeChar, h]

theorem utf8Encode_ascii (s : Str) (h : ∀ c ∈ s, c < 128) : utf8Encode s = s := by
  induction s with
  | nil => rfl
  | cons c t ih =>
    simp only [utf8Encode]
    rw [utf8EncodeChar_ascii c (h c (by simp)), ih (fun x hx => h x (by simp [hx]))]
    rfl

theorem hmacSha256Hex_length (k m : Bytes) : (hmacSha256Hex k m).length = 64 := by
  simp [hmacSha256Hex, hmac, hexOfBytes_length, sha256_length]

theorem hmacSha512Hex_length (k m : Bytes) : (hmacSha512Hex k m).length = 128 := by
  simp [hmacSha512Hex, hmac, hexOfBytes_length, sha512_length]

theorem hmacSha256Hex_ascii (k m : Bytes) : ∀ c ∈ hmacSha256Hex k m, c < 128 := by
  intro c hc
  exact hexOfBytes_ascii _ (by intro b hb; exact sha256_mem_lt _ b hb) c hc

theorem hmacSha512Hex_ascii (k m : Bytes) : ∀ c ∈ hmacSha512Hex k m, c < 128 := by
  intro c hc
  exact hexOfBytes_ascii _ (by intro b hb; exact sha512_mem_lt _ b hb) c hc

/-! ## UTF-8 round trip on scalar strings -/

theorem isCont_true (b : Nat) (h1 : 0x80 ≤ b) (h2 : b < 0xC0) : isCont b = true := by
  simp [isCont]; omega

theorem utf8Decode_encChar (c : Nat) (h : isScalar c = true) (bs : Bytes) :
    utf8Decode (utf8EncodeChar c ++ bs) = c :: utf8Decode bs := by
  have hsc : c < 0xD800 ∨ (0xE000 ≤ c ∧ c < 0x110000) := by
    simpa [isScalar, Bool.or_eq_true, Bool.and_eq_true, decide_eq_true_eq] using h
  by_cases h1 : c < 0x80
  · rw [utf8EncodeChar_ascii c h1]
    rw [List.cons_append, List.nil_append, utf8Decode.eq_def]
    dsimp only
    rw [if_pos h1]
  · by_cases h2 : c < 0x800
    · have e1 : utf8EncodeChar c = [0xC0 + c / 0x40, 0x80 + c % 0x40] := by
        rw [utf8EncodeChar, if_neg h1, if_pos h2]
      rw [e1]
      rw [List.cons_append, List.cons_append, List.nil_append, utf8Decode.eq_def]
      dsimp only
      rw [if_neg (by omega), if_neg (by omega), if_pos (by omega),
          if_pos (isCont_true _ (by omega) (by omega))]
      congr 1
      omega
    · by_cases h3 : c < 0x10000
      · have hns : ¬(0xD800 ≤ c ∧ c < 0xE000) := by omega
        have e1 : utf8EncodeChar c =
            [0xE0 + c / 0x1000, 0x80 + c / 0x40 % 0x40, 0x80 + c % 0x40] := by
          rw [utf8EncodeChar, if_neg h1, if_neg (by omega), if_pos h3,
              if_neg (by simpa [Bool.and_eq_true, decide_eq_true_eq] using hns)]
        have hc2 : cont2ok (0xE0 + c / 0x1000) (0x80 + c / 0x40 % 0x40) = true := by
          rw [cont2ok]
          split_ifs with hE0 hED hF0 hF4
          · simp only [Bool.and_eq_true, decide_eq_true_eq]; omega
          · simp only [Bool.and_eq_true, decide_eq_true_eq]; omega
          · omega
          · omega
          · exact isCont_true _ (by omega) (by omega)
        rw [e1]
        rw [List.cons_append, List.cons_append, List.cons_append, List.nil_append,
            utf8Decode.eq_def]
        dsimp only
        rw [if_neg (by omega), if_neg (by omega), if_neg (by omega), if_pos (by omega),
            if_pos hc2, if_pos (isCont_true _ (by omega) (by omega))]
        congr 1
        omega
      · have h4 : c < 0x110000 := by omega
        have e1 : utf8EncodeChar c =
            [0xF0 + c / 0x40000, 0x80 + c / 0x1000 % 0x40,
             0x80 + c / 0x40 % 0x40, 0x80 + c % 0x40] := by
          rw [utf8EncodeChar, if_neg h1, if_neg (by omega), if_neg (by omega),
              if_pos h4]
        have hc2 : cont2ok (0xF0 + c / 0x40000) (0x80 + c / 0x1000 % 0x40) = true := by
          rw [cont2ok]
          split_ifs with hE0 hED hF0 hF4
          · omega
          · omega
          · simp only [Bool.and_eq_true, decide_eq_true_eq]; omega
          · simp only [Bool.and_eq_true, decide_eq_true_eq]; omega
          · exact isCont_true _ (by omega) (by omega)
        rw [e1]
        rw [List.cons_append, List.cons_append, List.cons_append, List.cons_append,
            List.nil_append, utf8Decode.eq_def]
        dsimp only
        rw [if_neg (by omega), if_neg (by omega), if_neg (by omega), if_neg (by omega),
            if_pos hc2, if_pos (isCont_true _ (by omega) (by omega)),
            if_pos (isCont_true _ (by omega) (by omega))]
        congr 1
        omega

theorem utf8Decode_utf8Encode (s : Str) (h : ∀ c ∈ s, isScalar c = true) :
    utf8Decode (utf8Encode s) = s := by
  induction s with
  | nil => rfl
  | cons c t ih =>
    simp only [utf8Encode]
    rw [utf8Decode_encChar c (h c (by simp)), ih (fun x hx => h x (by simp [hx]))]

/-! ## Signature-verifier lemmas -/

theorem timingSafeEqual_self (a : Bytes) : timingSafeEqual a a = .ok true := by
  simp [timingSafeEqual]

theorem isEmpty_false_of_ne {l : List Nat} (h : l ≠ []) : l.isEmpty = false := by
  cases l with
  | nil => exact absurd rfl h
  | cons a t => rfl

theorem ne_nil_of_length_pos {l : List Nat} {L : Nat} (hl : l.length = L)
    (hL : 0 < L) : l ≠ [] := by
  intro hnil
  rw [hnil] at hl
  simp at hl
  omega

theorem verifySigWith_ok_true (hmacHex : Bytes → Bytes → Str) (L : Nat)
    (hlen : ∀ k m, (hmacHex k m).length = L) (hL : 0 < L)
    (s b : Str) (hs : s ≠ []) (hb : b ≠ []) :
    verifySigWith hmacHex (some b) (some (hmacHex (utf8Encode s) (utf8Encode b)))
      (some s) = .ok true := by
  have hd : hmacHex (utf8Encode s) (utf8Encode b) ≠ [] :=
    ne_nil_of_length_pos (hlen _ _) hL
  rw [verifySigWith]
  rw [if_neg (by simp [isEmpty_false_of_ne hs, isEmpty_false_of_ne hb,
        isEmpty_false_of_ne hd])]
  exact timingSafeEqual_self _

theorem verifySigWith_header_reject (hmacHex : Bytes → Bytes → Str) (L : Nat)
    (hlen : ∀ k m, (hmacHex k m).length = L)
    (hasc : ∀ k m, ∀ c ∈ hmacHex k m, c < 128)
    (s b h' : Str) (hs : s ≠ []) (hb : b ≠ [])
    (hlen' : (utf8Encode h').length = L) :
    verifySigWith hmacHex (some b) (some h') (some s) = .ok false ∨
      utf8Encode h' = utf8Encode (hmacHex (utf8Encode s) (utf8Encode b)) := by
  by_cases heq : utf8Encode h' = utf8Encode (hmacHex (utf8Encode s) (utf8Encode b))
  · exact Or.inr heq
  · left
    by_cases hh : h' = []
    · rw [verifySigWith, if_pos (by simp [hh])]
    · have henc : utf8Encode (hmacHex (utf8Encode s) (utf8Encode b)) =
          hmacHex (utf8Encode s) (utf8Encode b) :=
        utf8Encode_ascii _ (hasc _ _)
      rw [verifySigWith]
      rw [if_neg (by simp [isEmpty_false_of_ne hs, isEmpty_false_of_ne hb,
            isEmpty_false_of_ne hh])]
      rw [timingSafeEqual, if_pos (by rw [henc, hlen', hlen])]
      have : (utf8Encode h' == utf8Encode (hmacHex (utf8Encode s) (utf8Encode b))) = false := by
        simpa [beq_eq_false_iff_ne] using heq
      rw [this]

theorem verifySigWith_header_error (hmacHex : Bytes → Bytes → Str) (L : Nat)
    (hlen : ∀ k m, (hmacHex k m).length = L)
    (hasc : ∀ k m, ∀ c ∈ hmacHex k m, c < 128)
    (s b h' : Str) (hs : s ≠ []) (hb : b ≠ []) (hh : h' ≠ [])
    (hlen' : (utf8Encode h').length ≠ L) :
    verifySigWith hmacHex (some b) (some h') (some s) = .error () := by
  have henc : utf8Encode (hmacHex (utf8Encode s) (utf8Encode b)) =
      hmacHex (utf8Encode s) (utf8Encode b) :=
    utf8Encode_ascii _ (hasc _ _)
  rw [verifySigWith]
  rw [if_neg (by simp [isEmpty_false_of_ne hs, isEmpty_false_of_ne hb,
        isEmpty_false_of_ne hh])]
  rw [timingSafeEqual, if_neg (by rw [henc, hlen]; exact hlen')]

theorem verifySigWith_body_reject (hmacHex : Bytes → Bytes → Str) (L : Nat)
    (hlen : ∀ k m, (hmacHex k m).length = L) (hL : 0 < L)
    (hasc : ∀ k m, ∀ c ∈ hmacHex k m, c < 128)
    (s b b' : Str) (hs : s ≠ []) (hb' : b' ≠ []) :
    verifySigWith hmacHex (some b') (some (hmacHex (utf8Encode s) (utf8Encode b)))
      (some s) = .ok false ∨
      hmacHex (utf8Encode s) (utf8Encode b') = hmacHex (utf8Encode s) (utf8Encode b) := by
  by_cases heq : hmacHex (utf8Encode s) (utf8Encode b') = hmacHex (utf8Encode s) (utf8Encode b)
  · exact Or.inr heq
  · left
    have hd : hmacHex (utf8Encode s) (utf8Encode b) ≠ [] :=
      ne_nil_of_length_pos (hlen _ _) hL
    have hencH : utf8Encode (hmacHex (utf8Encode s) (utf8Encode b)) =
        hmacHex (utf8Encode s) (utf8Encode b) := utf8Encode_ascii _ (hasc _ _)
    have hencD : utf8Encode (hmacHex (utf8Encode s) (utf8Encode b')) =
        hmacHex (utf8Encode s) (utf8Encode b') := utf8Encode_ascii _ (hasc _ _)
    rw [verifySigWith]
    rw [if_neg (by simp [isEmpty_false_of_ne hs, isEmpty_false_of_ne hb',
          isEmpty_false_of_ne hd])]
    rw [timingSafeEqual, if_pos (by rw [hencH, hencD, hlen, hlen])]
    have : (utf8Encode (hmacHex (utf8Encode s) (utf8Encode b)) ==
        utf8Encode (hmacHex (utf8Encode s) (utf8Encode b'))) = false := by
      rw [hencH, hencD]
      simpa [beq_eq_false_iff_ne] using (Ne.symm heq)
    rw [this]

/-! ## Route-handler case lemmas -/

theorem handleLemon_vfalse {env : Env} {req : WebhookReq}
    (hv : verifyLemonSignature (rawBodyOf req.body) req.sigHeader env.lemonSecret =
      .ok false) : handleLemon env req = (400, []) := by
  unfold handleLemon
  rw [hv]

theorem handleLemon_verror {env : Env} {req : WebhookReq}
    (hv : verifyLemonSignature (rawBodyOf req.body) req.sigHeader env.lemonSecret =
      .error ()) : handleLemon env req = (500, []) := by
  unfold handleLemon
  rw [hv]

theorem handleLemon_vtrue {env : Env} {req : WebhookReq}
    (hv : verifyLemonSignature (rawBodyOf req.body) req.sigHeader env.lemonSecret =
      .ok true) :
    handleLemon env req =
      (match jsonParse (parseInput (rawBodyOf req.body)) with
       | none => (500, [])
       | some evt => lemonProcess env evt) := by
  unfold handleLemon
  rw [hv]

theorem handleNow_vfalse {env : Env} {req : WebhookReq}
    (hv : verifyNowPaymentsSignature (rawBodyOf req.body) req.sigHeader env.nowSecret =
      .ok false) : handleNow env req = (400, []) := by
  unfold handleNow
  rw [hv]

theorem handleNow_verror {env : Env} {req : WebhookReq}
    (hv : verifyNowPaymentsSignature (rawBodyOf req.body) req.sigHeader env.nowSecret =
      .error ()) : handleNow env req = (500, []) := by
  unfold handleNow
  rw [hv]

theorem handleNow_vtrue {env : Env} {req : WebhookReq}
    (hv : verifyNowPaymentsSignature (rawBodyOf req.body) req.sigHeader env.nowSecret =
      .ok true) :
    handleNow env req =
      (match jsonParse (parseInput (rawBodyOf req.body)) with
       | none => (500, [])
       | some evt => nowProcess env evt) := by
  unfold handleNow
  rw [hv]

theorem verifySigWith_no_secret (hmacHex : Bytes → Bytes → Str)
    (raw header : Option Str) :
    verifySigWith hmacHex raw header none = .ok false := by
  rcases raw with _ | r
  · rfl
  · rcases header with _ | h
    · rfl
    · rfl

theorem verifySigWith_empty_secret (hmacHex : Bytes → Bytes → Str)
    (raw header : Option Str) :
    verifySigWith hmacHex raw header (some []) = .ok false := by
  rcases raw with _ | r
  · rfl
  · rcases header with _ | h
    · rfl
    · rw [verifySigWith, if_pos (by simp)]

instance : DecidableEq (Except Unit Bool) := fun x y =>
  match x, y with
  | .ok a, .ok b =>
    if h : a = b then isTrue (by rw [h])
    else isFalse (fun hc => h (Except.ok.inj hc))
  | .error a, .error b => isTrue (by cases a; cases b; rfl)
  | .ok _, .error _ => isFalse (fun hc => Except.noConfusion hc)
  | .error _, .ok _ => isFalse (fun hc => Except.noConfusion hc)

theorem verifySigWith_no_raw (hmacHex : Bytes → Bytes → Str)
    (header secret : Option Str) :
    verifySigWith hmacHex none header secret = .ok false := by
  rcases header with _ | h <;> rcases secret with _ | k <;> rfl

/-! ## Claim theorems -/

/-- C10: a request whose body is the empty byte sequence is always rejected
with 400 and no notification attempt on both webhook routes, whatever the
signature header carries (including the correct keyed digest of the empty
string): `rawBodySaver` only records a non-empty body, and the verifiers
treat an absent raw body as reject. -/
theorem emptyBody_always_400 :
    ∀ (env : Env) (header : Option Str),
      handleLemon env ⟨[], header⟩ = (400, []) ∧
      handleNow env ⟨[], header⟩ = (400, []) := by
  intro env header
  constructor
  · exact handleLemon_vfalse (verifySigWith_no_raw _ _ _)
  · exact handleNow_vfalse (verifySigWith_no_raw _ _ _)

/-- C9: both verifiers return false — and both routes answer 400 with no
notification attempt — whenever the provider's shared secret is unset
(`undefined`) or the empty string, regardless of header and body; an absent
secret is never treated as verification skipped. -/
theorem missing_secret_always_rejected :
    ∀ (raw header : Option Str) (env : Env) (req : WebhookReq),
      verifyLemonSignature raw header none = .ok false ∧
      verifyLemonSignature raw header (some []) = .ok false ∧
      verifyNowPaymentsSignature raw header none = .ok false ∧
      verifyNowPaymentsSignature raw header (some []) = .ok false ∧
      (env.lemonSecret = none ∨ env.lemonSecret = some [] →
        handleLemon env req = (400, [])) ∧
      (env.nowSecret = none ∨ env.nowSecret = some [] →
        handleNow env req = (400, [])) := by
  intro raw header env req
  refine ⟨verifySigWith_no_secret _ _ _, verifySigWith_empty_secret _ _ _,
    verifySigWith_no_secret _ _ _, verifySigWith_empty_secret _ _ _, ?_, ?_⟩
  · intro h
    refine handleLemon_vfalse ?_
    rcases h with h | h <;> rw [h]
    · exact verifySigWith_no_secret _ _ _
    · exact verifySigWith_empty_secret _ _ _
  · intro h
    refine handleNow_vfalse ?_
    rcases h with h | h <;> rw [h]
    · exact verifySigWith_no_secret _ _ _
    · exact verifySigWith_empty_secret _ _ _

/-- Witness for C9's handler-level conjuncts at a concrete environment with
no configured secrets and a concrete request. -/
theorem missing_secret_always_rejected_witness :
    (envNoSecrets.lemonSecret = none ∨ envNoSecrets.lemonSecret = some []) ∧
    (envNoSecrets.nowSecret = none ∨ envNoSecrets.nowSecret = some []) ∧
    handleLemon envNoSecrets ⟨[120], some (strLit ("abc"))⟩ = (400, []) ∧
    handleNow envNoSecrets ⟨[120], some (strLit ("abc"))⟩ = (400, []) :=
  ⟨Or.inl rfl, Or.inl rfl,
   (missing_secret_always_rejected none none envNoSecrets
     ⟨[120], some (strLit ("abc"))⟩).2.2.2.2.1 (Or.inl rfl),
   (missing_secret_always_rejected none none envNoSecrets
     ⟨[120], some (strLit ("abc"))⟩).2.2.2.2.2 (Or.inl rfl)⟩

/-- C4: a notification attempt only ever happens after the request's own
provider verifier returned true on the request's captured raw body with that
provider's secret and digest (SHA-256 for LemonSqueezy, SHA-512 for
NOWPayments): whenever verification did not return true, the handler makes
no notification attempt.  The two routes use disjoint verifiers and secrets,
and neither handler has any other path to `notifyOrder`. -/
theorem notification_only_after_verification :
    ∀ (env : Env) (req : WebhookReq),
      (verifyLemonSignature (rawBodyOf req.body) req.sigHeader env.lemonSecret ≠
          .ok true → (handleLemon env req).2 = []) ∧
      (verifyNowPaymentsSignature (rawBodyOf req.body) req.sigHeader env.nowSecret ≠
          .ok true → (handleNow env req).2 = []) := by
  intro env req
  constructor
  · intro hne
    rcases hv : verifyLemonSignature (rawBodyOf req.body) req.sigHeader
        env.lemonSecret with u | b
    · rw [handleLemon_verror (by cases u; exact hv)]
    · cases b
      · rw [handleLemon_vfalse hv]
      · exact absurd hv hne
  · intro hne
    rcases hv : verifyNowPaymentsSignature (rawBodyOf req.body) req.sigHeader
        env.nowSecret with u | b
    · rw [handleNow_verror (by cases u; exact hv)]
    · cases b
      · rw [handleNow_vfalse hv]
      · exact absurd hv hne

/-- Witness for C4 at a concrete unverifiable request. -/
theorem notification_only_after_verification_witness :
    (verifyLemonSignature (rawBodyOf (WebhookReq.mk [120] none).body)
        (WebhookReq.mk [120] none).sigHeader envNoSecrets.lemonSecret ≠ .ok true) ∧
    (handleLemon envNoSecrets ⟨[120], none⟩).2 = [] ∧
    (verifyNowPaymentsSignature (rawBodyOf (WebhookReq.mk [120] none).body)
        (WebhookReq.mk [120] none).sigHeader envNoSecrets.nowSecret ≠ .ok true) ∧
    (handleNow envNoSecrets ⟨[120], none⟩).2 = [] :=
  ⟨by decide,
   (notification_only_after_verification envNoSecrets ⟨[120], none⟩).1 (by decide),
   by decide,
   (notification_only_after_verification envNoSecrets ⟨[120], none⟩).2 (by decide)⟩

/-- C1 (amended): a POST to either webhook route whose signature fails to
verify is answered with no notification attempt; the response is 400
whenever the verifier returns false (missing body, missing header, missing
or empty secret, or an equal-length header that differs from the digest),
while a present header whose UTF-8 byte length differs from the digest's
makes `crypto.timingSafeEqual` throw, which the handler's catch-all answers
with 500 — still with no notification attempt. -/
theorem failed_verification_no_notification :
    ∀ (env : Env) (req : WebhookReq),
      (verifyLemonSignature (rawBodyOf req.body) req.sigHeader env.lemonSecret =
          .ok false → handleLemon env req = (400, [])) ∧
      (verifyLemonSignature (rawBodyOf req.body) req.sigHeader env.lemonSecret =
          .error () → handleLemon env req = (500, [])) ∧
      (verifyNowPaymentsSignature (rawBodyOf req.body) req.sigHeader env.nowSecret =
          .ok false → handleNow env req = (400, [])) ∧
      (verifyNowPaymentsSignature (rawBodyOf req.body) req.sigHeader env.nowSecret =
          .error () → handleNow env req = (500, [])) := by
  intro env req
  exact ⟨handleLemon_vfalse, handleLemon_verror, handleNow_vfalse, handleNow_verror⟩

/-- Witness for C1's amended theorem at a concrete request whose signature
header is absent. -/
theorem failed_verification_no_notification_witness :
    verifyLemonSignature (rawBodyOf (WebhookReq.mk [120] none).body)
        (WebhookReq.mk [120] none).sigHeader envNoSecrets.lemonSecret = .ok false ∧
    handleLemon envNoSecrets ⟨[120], none⟩ = (400, []) ∧
    verifyNowPaymentsSignature (rawBodyOf (WebhookReq.mk [120] none).body)
        (WebhookReq.mk [120] none).sigHeader envNoSecrets.nowSecret = .ok false ∧
    handleNow envNoSecrets ⟨[120], none⟩ = (400, []) :=
  ⟨rfl,
   (failed_verification_no_notification envNoSecrets ⟨[120], none⟩).1 rfl,
   rfl,
   (failed_verification_no_notification envNoSecrets ⟨[120], none⟩).2.2.1 rfl⟩

/-- Counterexample to C1 as stated: with a configured secret, a non-empty
body, and a present three-character signature header (which cannot equal the
64-character SHA-256 hex digest), the buffer comparison throws and the
handler answers 500, not 400 — the signature fails to verify, yet the status
is not 400. -/
theorem failed_verification_status_counterexample :
    verifyLemonSignature (rawBodyOf reqC1.body) reqC1.sigHeader envC1.lemonSecret =
      .error () ∧
    handleLemon envC1 reqC1 = (500, []) ∧
    (handleLemon envC1 reqC1).1 ≠ 400 := by
  have h1 : rawBodyOf reqC1.body = some [120] := by decide
  have h2 : verifyLemonSignature (rawBodyOf reqC1.body) reqC1.sigHeader
      envC1.lemonSecret = .error () := by
    rw [h1]
    exact verifySigWith_header_error hmacSha256Hex 64 hmacSha256Hex_length
      hmacSha256Hex_ascii (strLit ("s")) [120] (strLit ("abc"))
      (by decide) (by decide) (by decide) (by decide)
  refine ⟨h2, handleLemon_verror h2, ?_⟩
  rw [handleLemon_verror h2]
  decide

/-- C2 (amended): for every inbound webhook body that is the UTF-8 encoding
of a sequence of Unicode scalar values — every well-formed UTF-8 body, in
particular every JSON text a provider sends — the captured raw-body string
decodes the body losslessly, and the bytes over which the keyed digest is
computed (the UTF-8 re-encoding of the captured string) are byte-for-byte
identical to the inbound body.  (For bodies that are not valid UTF-8 the
capture is lossy; see the counterexample.) -/
theorem raw_capture_roundtrip :
    ∀ (s : Str), (∀ c ∈ s, isScalar c = true) →
      utf8Decode (utf8Encode s) = s ∧
      utf8Encode (utf8Decode (utf8Encode s)) = utf8Encode s ∧
      (utf8Encode s ≠ [] → rawBodyOf (utf8Encode s) = some s) := by
  intro s hs
  have hrt : utf8Decode (utf8Encode s) = s := utf8Decode_utf8Encode s hs
  refine ⟨hrt, by rw [hrt], ?_⟩
  intro hne
  rw [rawBodyOf, if_neg (by simp [isEmpty_false_of_ne hne]), hrt]

/-- Witness for C2's amended theorem at a concrete string with a multi-byte
character. -/
theorem raw_capture_roundtrip_witness :
    (∀ c ∈ [104, 8364], isScalar c = true) ∧
    utf8Decode (utf8Encode [104, 8364]) = [104, 8364] ∧
    utf8Encode (utf8Decode (utf8Encode [104, 8364])) = utf8Encode [104, 8364] :=
  ⟨by decide, (raw_capture_roundtrip [104, 8364] (by decide)).1,
   (raw_capture_roundtrip [104, 8364] (by decide)).2.1⟩

/-- Counterexample to C2 as stated: the body consisting of the single byte
`0xFF` is not valid UTF-8; `buf.toString("utf8")` captures the replacement
character, whose re-encoding `EF BF BD` — the bytes the digest is computed
over — differs from the inbound body.  Raw-body capture is a lossy UTF-8
decode, not a byte-for-byte copy. -/
theorem raw_capture_not_bytewise_counterexample :
    rawBodyOf [255] = some [65533] ∧
    utf8Encode (utf8Decode [255]) = [239, 191, 189] ∧
    utf8Encode (utf8Decode [255]) ≠ [255] := by
  refine ⟨by decide, by decide, by decide⟩

/-- C3 (amended): for every non-empty secret and non-empty captured body,
verifying the body against the signature produced by signing it with that
secret returns true, for both providers.  A tampered header is rejected:
if its UTF-8 byte length equals the digest's (64 for SHA-256 hex, 128 for
SHA-512 hex) then verification returns false unless it equals the digest,
and a non-empty header of any other byte length makes the comparison throw.
A tampered body is rejected whenever its keyed digest differs from the
original's (which for a single-bit flip is HMAC collision resistance,
assumed, not proved).  Empty secrets and empty bodies are rejected outright
(see the counterexample). -/
theorem verify_sign_roundtrip :
    (∀ s b : Str, s ≠ [] → b ≠ [] →
       verifyLemonSignature (some b) (some (lemonSign s b)) (some s) = .ok true) ∧
    (∀ s b : Str, s ≠ [] → b ≠ [] →
       verifyNowPaymentsSignature (some b) (some (nowSign s b)) (some s) = .ok true) ∧
    (∀ s b h' : Str, s ≠ [] → b ≠ [] → (utf8Encode h').length = 64 →
       verifyLemonSignature (some b) (some h') (some s) = .ok false ∨
         utf8Encode h' = utf8Encode (lemonSign s b)) ∧
    (∀ s b h' : Str, s ≠ [] → b ≠ [] → h' ≠ [] → (utf8Encode h').length ≠ 64 →
       verifyLemonSignature (some b) (some h') (some s) = .error ()) ∧
    (∀ s b h' : Str, s ≠ [] → b ≠ [] → (utf8Encode h').length = 128 →
       verifyNowPaymentsSignature (some b) (some h') (some s) = .ok false ∨
         utf8Encode h' = utf8Encode (nowSign s b)) ∧
    (∀ s b h' : Str, s ≠ [] → b ≠ [] → h' ≠ [] → (utf8Encode h').length ≠ 128 →
       verifyNowPaymentsSignature (some b) (some h') (some s) = .error ()) ∧
    (∀ s b b' : Str, s ≠ [] → b' ≠ [] →
       verifyLemonSignature (some b') (some (lemonSign s b)) (some s) = .ok false ∨
         lemonSign s b' = lemonSign s b) ∧
    (∀ s b b' : Str, s ≠ [] → b' ≠ [] →
       verifyNowPaymentsSignature (some b') (some (nowSign s b)) (some s) = .ok false ∨
         nowSign s b' = nowSign s b) := by
  refine ⟨?_, ?_, ?_, ?_, ?_, ?_, ?_, ?_⟩
  · intro s b hs hb
    exact verifySigWith_ok_true hmacSha256Hex 64 hmacSha256Hex_length
      (by omega) s b hs hb
  · intro s b hs hb
    exact verifySigWith_ok_true hmacSha512Hex 128 hmacSha512Hex_length
      (by omega) s b hs hb
  · intro s b h' hs hb hl
    exact verifySigWith_header_reject hmacSha256Hex 64 hmacSha256Hex_length
      hmacSha256Hex_ascii s b h' hs hb hl
  · intro s b h' hs hb hh hl
    exact verifySigWith_header_error hmacSha256Hex 64 hmacSha256Hex_length
      hmacSha256Hex_ascii s b h' hs hb hh hl
  · intro s b h' hs hb hl
    exact verifySigWith_header_reject hmacSha512Hex 128 hmacSha512Hex_length
      hmacSha512Hex_ascii s b h' hs hb hl
  · intro s b h' hs hb hh hl
    exact verifySigWith_header_error hmacSha512Hex 128 hmacSha512Hex_length
      hmacSha512Hex_ascii s b h' hs hb hh hl
  · intro s b b' hs hb'
    exact verifySigWith_body_reject hmacSha256Hex 64 hmacSha256Hex_length
      (by omega) hmacSha256Hex_ascii s b b' hs hb'
  · intro s b b' hs hb'
    exact verifySigWith_body_reject hmacSha512Hex 128 hmacSha512Hex_length
      (by omega) hmacSha512Hex_ascii s b b' hs hb'

/-- Witness for C3's amended theorem: each component applied at concrete
non-empty secrets, bodies and headers. -/
theorem verify_sign_roundtrip_witness :
    ([107] ≠ ([] : Str)) ∧ ([97] ≠ ([] : Str)) ∧
    verifyLemonSignature (some [97]) (some (lemonSign [107] [97])) (some [107]) =
      .ok true ∧
    verifyNowPaymentsSignature (some [97]) (some (nowSign [107] [97])) (some [107]) =
      .ok true ∧
    (utf8Encode (List.replicate 64 48)).length = 64 ∧
    (verifyLemonSignature (some [97]) (some (List.replicate 64 48)) (some [107]) =
       .ok false ∨
      utf8Encode (List.replicate 64 48) = utf8Encode (lemonSign [107] [97])) ∧
    (utf8Encode [48]).length ≠ 64 ∧
    verifyLemonSignature (some [97]) (some [48]) (some [107]) = .error () ∧
    (utf8Encode (List.replicate 128 48)).length = 128 ∧
    (verifyNowPaymentsSignature (some [97]) (some (List.replicate 128 48))
        (some [107]) = .ok false ∨
      utf8Encode (List.replicate 128 48) = utf8Encode (nowSign [107] [97])) ∧
    (utf8Encode [48]).length ≠ 128 ∧
    verifyNowPaymentsSignature (some [97]) (some [48]) (some [107]) = .error () ∧
    (verifyLemonSignature (some [120]) (some (lemonSign [107] [97])) (some [107]) =
       .ok false ∨ lemonSign [107] [120] = lemonSign [107] [97]) ∧
    (verifyNowPaymentsSignature (some [120]) (some (nowSign [107] [97])) (some [107]) =
       .ok false ∨ nowSign [107] [120] = nowSign [107] [97]) :=
  ⟨by decide, by decide,
   verify_sign_roundtrip.1 [107] [97] (by decide) (by decide),
   verify_sign_roundtrip.2.1 [107] [97] (by decide) (by decide),
   by decide,
   verify_sign_roundtrip.2.2.1 [107] [97] (List.replicate 64 48)
     (by decide) (by decide) (by decide),
   by decide,
   verify_sign_roundtrip.2.2.2.1 [107] [97] [48]
     (by decide) (by decide) (by decide) (by decide),
   by decide,
   verify_sign_roundtrip.2.2.2.2.1 [107] [97] (List.replicate 128 48)
     (by decide) (by decide) (by decide),
   by decide,
   verify_sign_roundtrip.2.2.2.2.2.1 [107] [97] [48]
     (by decide) (by decide) (by decide) (by decide),
   verify_sign_roundtrip.2.2.2.2.2.2.1 [107] [97] [120] (by decide) (by decide),
   verify_sign_roundtrip.2.2.2.2.2.2.2 [107] [97] [120] (by decide) (by decide)⟩

/-- Counterexample to C3 as stated: at the pair of a non-empty secret and
the empty body, verifying the body against its own signature returns false,
not true — the verifier's falsy-guard rejects an empty raw body (and
likewise an empty secret) before any digest comparison. -/
theorem verify_sign_roundtrip_counterexample :
    verifyLemonSignature (some []) (some (lemonSign [107] [])) (some [107]) =
      .ok false ∧
    verifyLemonSignature (some []) (some (lemonSign [107] [])) (some [107]) ≠
      .ok true := by
  constructor
  · rfl
  · intro h
    exact Bool.noConfusion (Except.ok.inj (h.symm.trans rfl))

/-- C5: for a verified, parsed event, a LemonSqueezy event whose classified
name (`meta.event_name` falling back to legacy `event`) is `order_created`
or `subscription_payment_success`, and a NOWPayments event whose
`payment_status` is `finished`, trigger exactly one notification attempt
(one `notifyOrder` call, whatever its outcome); every other name or status
triggers zero attempts and is still answered 200. -/
theorem classifier_notification_counts :
    ∀ (env : Env) (evt : Json),
      (lemonIsSuccess evt = true → (lemonProcess env evt).2 = [lemonExtract evt]) ∧
      (lemonIsSuccess evt = false → lemonProcess env evt = (200, [])) ∧
      (nowIsSuccess evt = true → (nowProcess env evt).2 = [nowExtract evt]) ∧
      (nowIsSuccess evt = false → nowProcess env evt = (200, [])) := by
  intro env evt
  refine ⟨?_, ?_, ?_, ?_⟩
  · intro h
    simp only [lemonProcess, h, if_true]
    cases hno : notifyOrder env (lemonExtract evt) <;> simp [hno]
  · intro h
    simp [lemonProcess, h]
  · intro h
    simp only [nowProcess, h, if_true]
    cases hno : notifyOrder env (nowExtract evt) <;> simp [hno]
  · intro h
    simp [nowProcess, h]

/-- Witness for C5 at concrete events: an `order_created` LemonSqueezy
event and a `finished` NOWPayments event each yield one attempt; empty
objects yield zero attempts and a 200. -/
theorem classifier_notification_counts_witness :
    lemonIsSuccess evtOrderCreated = true ∧
    (lemonProcess envNoSecrets evtOrderCreated).2 = [lemonExtract evtOrderCreated] ∧
    lemonIsSuccess (Json.obj []) = false ∧
    lemonProcess envNoSecrets (Json.obj []) = (200, []) ∧
    nowIsSuccess evtNowFinished = true ∧
    (nowProcess envNoSecrets evtNowFinished).2 = [nowExtract evtNowFinished] ∧
    nowIsSuccess (Json.obj []) = false ∧
    nowProcess envNoSecrets (Json.obj []) = (200, []) :=
  ⟨by decide,
   (classifier_notification_counts envNoSecrets evtOrderCreated).1 (by decide),
   by decide,
   (classifier_notification_counts envNoSecrets (Json.obj [])).2.1 (by decide),
   by decide,
   (classifier_notification_counts envNoSecrets evtNowFinished).2.2.1 (by decide),
   by decide,
   (classifier_notification_counts envNoSecrets (Json.obj [])).2.2.2 (by decide)⟩

/-- C6 (amended): order extraction is total (the embedding of both
extractors is a total function on parsed events — every access in the
source is optional-chained or guarded, so no event shape throws) and each
absent field has a defined fallback behavior: buyer email resolves to
`null`, currency to `"USD"`, website type to `"unknown"`, and the
LemonSqueezy amount to `0`; the NOWPayments amount has no default and is
passed through as `undefined` when `price_amount` is absent (see the
counterexample). -/
theorem extraction_defaults :
    ∀ (evt : Json),
      (jget (lemonAttributes evt) userEmailS = none →
       jget (lemonAttributes evt) customerEmailS = none →
       (lemonExtract evt).buyerEmail = .val .null) ∧
      (jget (lemonAttributes evt) currencyS = none →
       (lemonExtract evt).currency = .val (.str usdS)) ∧
      (jget (lemonAttributes evt) totalS = none →
       (lemonExtract evt).amount = .val (.num 0)) ∧
      (jget (jget (lemonAttributes evt) customS) websiteTypeS = none →
       jget (jget (jget (some evt) metaS) customDataS) websiteTypeS = none →
       (lemonExtract evt).websiteType = .val (.str unknownS)) ∧
      (jget (some evt) customerEmailS = none →
       (nowExtract evt).buyerEmail = .val .null) ∧
      (jget (some evt) priceCurrencyS = none →
       (nowExtract evt).currency = .val (.str usdS)) ∧
      (jget (some evt) orderDescriptionS = none →
       (nowExtract evt).websiteType = .val (.str unknownS)) ∧
      (jget (some evt) priceAmountS = none → (nowExtract evt).amount = .undef) := by
  intro evt
  refine ⟨?_, ?_, ?_, ?_, ?_, ?_, ?_, ?_⟩
  · intro h1 h2
    show JsVal.ofJVal (jor (jor (jget (lemonAttributes evt) userEmailS)
      (jget (lemonAttributes evt) customerEmailS)) (some .null)) = .val .null
    rw [h1, h2]
    rfl
  · intro h
    show JsVal.ofJVal (jor (jget (lemonAttributes evt) currencyS)
      (some (.str usdS))) = .val (.str usdS)
    rw [h]
    rfl
  · intro h
    show jsDiv (jnullish (jget (lemonAttributes evt) totalS) (.num 0))
      (.num 100) = .val (.num 0)
    rw [h]
    show jsDiv (.num 0) (.num 100) = .val (.num 0)
    rw [jsDiv]
    simp only [toNumber]
    rw [if_neg (by norm_num)]
    norm_num
  · intro h1 h2
    show JsVal.ofJVal (jor (jor (jget (jget (lemonAttributes evt) customS) websiteTypeS)
      (jget (jget (jget (some evt) metaS) customDataS) websiteTypeS))
      (some (.str unknownS))) = .val (.str unknownS)
    rw [h1, h2]
    rfl
  · intro h
    show JsVal.ofJVal (jor (jget (some evt) customerEmailS) (some .null)) = .val .null
    rw [h]
    rfl
  · intro h
    show JsVal.ofJVal (jor (jget (some evt) priceCurrencyS) (some (.str usdS))) =
      .val (.str usdS)
    rw [h]
    rfl
  · intro h
    show JsVal.val (.str (nowWebsiteType evt)) = .val (.str unknownS)
    rw [nowWebsiteType, h]
  · intro h
    show JsVal.ofJVal (jget (some evt) priceAmountS) = .undef
    rw [h]
    rfl

/-- Witness for C6 at the empty-object event, where every lookup is
absent. -/
theorem extraction_defaults_witness :
    jget (lemonAttributes (Json.obj [])) userEmailS = none ∧
    (lemonExtract (Json.obj [])).buyerEmail = .val .null ∧
    (lemonExtract (Json.obj [])).currency = .val (.str usdS) ∧
    (lemonExtract (Json.obj [])).amount = .val (.num 0) ∧
    (lemonExtract (Json.obj [])).websiteType = .val (.str unknownS) ∧
    (nowExtract (Json.obj [])).buyerEmail = .val .null ∧
    (nowExtract (Json.obj [])).currency = .val (.str usdS) ∧
    (nowExtract (Json.obj [])).websiteType = .val (.str unknownS) ∧
    (nowExtract (Json.obj [])).amount = .undef :=
  ⟨rfl,
   (extraction_defaults (Json.obj [])).1 rfl rfl,
   (extraction_defaults (Json.obj [])).2.1 rfl,
   (extraction_defaults (Json.obj [])).2.2.1 rfl,
   (extraction_defaults (Json.obj [])).2.2.2.1 rfl rfl,
   (extraction_defaults (Json.obj [])).2.2.2.2.1 rfl,
   (extraction_defaults (Json.obj [])).2.2.2.2.2.1 rfl,
   (extraction_defaults (Json.obj [])).2.2.2.2.2.2.1 rfl,
   (extraction_defaults (Json.obj [])).2.2.2.2.2.2.2 rfl⟩

/-- Counterexample to C6 as stated: for a NOWPayments `finished` event with
no `price_amount` field, the extracted amount is `undefined` — the source
binds `const amount = evt?.price_amount` with no fallback — so it resolves
to no substituted value at all, in particular neither to `0` (the
LemonSqueezy amount default) nor to `null` (the buyer-email default); the
claim that every extracted field resolves to a documented default when
absent is false for this field. -/
theorem extraction_defaults_counterexample :
    nowIsSuccess evtNowNoAmount = true ∧
    jget (some evtNowNoAmount) priceAmountS = none ∧
    (nowExtract evtNowNoAmount).amount = JsVal.undef ∧
    (nowExtract evtNowNoAmount).amount ≠ JsVal.val (Json.num 0) ∧
    (nowExtract evtNowNoAmount).amount ≠ JsVal.val Json.null := by
  refine ⟨by decide, rfl, rfl, ?_, ?_⟩
  · intro h
    exact JsVal.noConfusion ((rfl : (nowExtract evtNowNoAmount).amount =
      JsVal.undef) ▸ h)
  · intro h
    exact JsVal.noConfusion ((rfl : (nowExtract evtNowNoAmount).amount =
      JsVal.undef) ▸ h)

/-- C7: for every LemonSqueezy event whose `data.attributes.total` is a
number `q`, the extracted amount is `q / 100` (minor units to major units),
defaulting to `0` when `total` is absent; for every NOWPayments event the
extracted amount is `price_amount` passed through with no scaling. -/
theorem amount_normalization :
    ∀ (evt : Json) (q : ℚ),
      (jget (lemonAttributes evt) totalS = some (.num q) →
        (lemonExtract evt).amount = .val (.num (q / 100))) ∧
      (jget (lemonAttributes evt) totalS = none →
        (lemonExtract evt).amount = .val (.num 0)) ∧
      ((nowExtract evt).amount = .ofJVal (jget (some evt) priceAmountS)) ∧
      (jget (some evt) priceAmountS = some (.num q) →
        (nowExtract evt).amount = .val (.num q)) := by
  intro evt q
  refine ⟨?_, ?_, rfl, ?_⟩
  · intro h
    show jsDiv (jnullish (jget (lemonAttributes evt) totalS) (.num 0))
      (.num 100) = .val (.num (q / 100))
    rw [h]
    show jsDiv (.num q) (.num 100) = .val (.num (q / 100))
    rw [jsDiv]
    simp only [toNumber]
    rw [if_neg (by norm_num)]
  · intro h
    show jsDiv (jnullish (jget (lemonAttributes evt) totalS) (.num 0))
      (.num 100) = .val (.num 0)
    rw [h]
    show jsDiv (.num 0) (.num 100) = .val (.num 0)
    rw [jsDiv]
    simp only [toNumber]
    rw [if_neg (by norm_num)]
    norm_num
  · intro h
    show JsVal.ofJVal (jget (some evt) priceAmountS) = .val (.num q)
    rw [h]
    rfl

/-- Witness for C7 at the concrete sample amounts of the specification:
LemonSqueezy `total = 2500` yields `25`; NOWPayments `price_amount = 25`
yields `25`. -/
theorem amount_normalization_witness :
    jget (lemonAttributes evtLemonTotal) totalS = some (.num 2500) ∧
    (lemonExtract evtLemonTotal).amount = .val (.num (2500 / 100)) ∧
    ((2500 : ℚ) / 100 = 25) ∧
    jget (some evtNowAmount) priceAmountS = some (.num 25) ∧
    (nowExtract evtNowAmount).amount = .val (.num 25) :=
  ⟨rfl, (amount_normalization evtLemonTotal 2500).1 rfl, by norm_num, rfl,
   (amount_normalization evtNowAmount 25).2.2.2 rfl⟩

/-- C8: a LemonSqueezy event with neither `data.attributes.custom.websiteType`
nor `meta.custom_data.websiteType` yields website type `"unknown"`; the
NOWPayments website type comes from matching a case-insensitive `type=` word
token in `order_description` and lower-casing the captured word (so
`"type=AI;email=x@y.com"` yields `"ai"`), defaulting to `"unknown"` when
the field is absent or the token does not match. -/
theorem website_type_extraction :
    ∀ (evt : Json) (s w : Str),
      (jget (jget (lemonAttributes evt) customS) websiteTypeS = none →
       jget (jget (jget (some evt) metaS) customDataS) websiteTypeS = none →
       (lemonExtract evt).websiteType = .val (.str unknownS)) ∧
      ((nowExtract evt).websiteType = .val (.str (nowWebsiteType evt))) ∧
      (jget (some evt) orderDescriptionS = some (.str s) →
        regexTypeMatch s = some w → nowWebsiteType evt = w.map lowerAscii) ∧
      (jget (some evt) orderDescriptionS = some (.str s) →
        regexTypeMatch s = none → nowWebsiteType evt = unknownS) ∧
      (jget (some evt) orderDescriptionS = none → nowWebsiteType evt = unknownS) ∧
      regexTypeMatch (strLit ("type=AI;email=x@y.com")) = some (strLit ("AI")) ∧
      (strLit ("AI")).map lowerAscii = strLit ("ai") := by
  intro evt s w
  refine ⟨?_, rfl, ?_, ?_, ?_, by decide, by decide⟩
  · intro h1 h2
    show JsVal.ofJVal (jor (jor (jget (jget (lemonAttributes evt) customS) websiteTypeS)
      (jget (jget (jget (some evt) metaS) customDataS) websiteTypeS))
      (some (.str unknownS))) = .val (.str unknownS)
    rw [h1, h2]
    rfl
  · intro h hm
    simp only [nowWebsiteType, h, hm]
  · intro h hm
    simp only [nowWebsiteType, h, hm]
  · intro h
    simp only [nowWebsiteType, h]

/-- Witness for C8 at the specification's fixtures: the `order_created`
event (with no custom data) yields `"unknown"`, and the NOWPayments
fixture's description yields `"ai"`. -/
theorem website_type_extraction_witness :
    jget (jget (lemonAttributes evtOrderCreated) customS) websiteTypeS = none ∧
    (lemonExtract evtOrderCreated).websiteType = .val (.str unknownS) ∧
    jget (some evtNowFinished) orderDescriptionS =
      some (.str (strLit ("type=AI;email=x@y.com"))) ∧
    nowWebsiteType evtNowFinished = (strLit ("AI")).map lowerAscii ∧
    (nowExtract evtNowFinished).websiteType = .val (.str (strLit ("ai"))) := by
  refine ⟨rfl,
    (website_type_extraction evtOrderCreated [] []).1 rfl rfl,
    rfl,
    (website_type_extraction evtNowFinished (strLit ("type=AI;email=x@y.com"))
      (strLit ("AI"))).2.2.1 rfl (by decide), ?_⟩
  have h := (website_type_extraction evtNowFinished
    (strLit ("type=AI;email=x@y.com")) (strLit ("AI"))).2.1
  rw [h, (website_type_extraction evtNowFinished
    (strLit ("type=AI;email=x@y.com")) (strLit ("AI"))).2.2.1 rfl (by decide)]
  have hlc : (strLit ("AI")).map lowerAscii = strLit ("ai") := by decide
  rw [hlc]
